import Mathlib

/-!
Verification model of the Chatcat real-time relay (src/Backend/server.js) and
the client call lifecycle (src/mern_chat_frontend/src/App.jsx).

Server state is the socket.io room table: a list of (roomId, socketId)
membership pairs.  socket.io stores rooms as sets of socket ids, so `joinRoom`
inserts without duplicating an existing pair.  `io.to(room).emit(...)` pushes
one event to every socket currently in `room`, the emitting socket included.
-/

namespace Chatcat

/-- The socket.io room table: (roomId, socketId) membership pairs. -/
abbrev Rooms := List (String × String)

/-- Sockets currently in `room` (socket.io `io.to(room)` target set). -/
def sessionsIn (st : Rooms) (room : String) : List String :=
  (st.filter (fun p => p.1 == room)).map Prod.snd

/-- Rooms a socket currently belongs to (socket.io `socket.rooms`; it always
contains the room named by the socket's own id). -/
def roomsOf (st : Rooms) (sid : String) : List String :=
  (st.filter (fun p => p.2 == sid)).map Prod.fst

/-- server.js 93-96, `socket.on("join chat")`: `socket.join(roomId)`.
socket.io rooms are sets of socket ids, so a join of an already-present pair
leaves the table unchanged. -/
def joinRoom (st : Rooms) (sid room : String) : Rooms :=
  if (room, sid) ∈ st then st else st ++ [(room, sid)]

/-- A chat member as the server sees it: a user record carrying an id. -/
structure MsgUser where
  uid : String
deriving Repr, DecidableEq

/-- `message.chat`: the chat record; `users` is absent (`none`) when the JS
object has no `users` field. -/
structure MsgChat where
  users : Option (List MsgUser)
deriving Repr, DecidableEq

/-- A relayed chat message (only the fields server.js reads). -/
structure Message where
  chat : Option MsgChat
  sender : MsgUser
  content : String
deriving Repr, DecidableEq

/-- server.js 99-107, `socket.on("new message")`.  Returns the list of identity
rooms emitted to (one `io.to(user._id).emit("message received", message)` call
per listed non-sender user, in list order) together with whether the
`"⚠️ chat.users not defined."` log line fired.  In JS `!chat?.users` is true
when `chat` or `chat.users` is missing, but false for an empty array, which is
truthy. -/
def newMessage (msg : Message) : List String × Bool :=
  match msg.chat with
  | none => ([], true)
  | some chat =>
    match chat.users with
    | none => ([], true)
    | some users =>
      ((users.filter (fun u => u.uid != msg.sender.uid)).map MsgUser.uid, false)

/-- Session-level expansion of the fan-out: each room emit reaches every socket
currently in that identity room, carrying the message verbatim. -/
def newMessageDeliveries (st : Rooms) (msg : Message) : List (String × Message) :=
  (newMessage msg).1.flatMap (fun r => (sessionsIn st r).map (fun s => (s, msg)))

/-- server.js 149-156, `socket.on("disconnecting")`: for every room of the
departing socket other than the room named by its own id,
`io.to(room).emit("peer-disconnected", { socketId: socket.id })`.  Each event
is a (receiving socket, departed socket id) pair; `io.to` includes every socket
in the room, the departing one among them. -/
def disconnecting (st : Rooms) (sid : String) : List (String × String) :=
  ((roomsOf st sid).filter (fun r => r != sid)).flatMap
    (fun r => (sessionsIn st r).map (fun s => (s, sid)))

/-- The payload of an inbound call-signaling event (fields a handler may read);
`target` embeds the JS field `to`. -/
structure SignalData where
  target : String
  fromId : String
  name : String
  callType : String
  sdp : String
  candidate : String
deriving Repr, DecidableEq

/-- The eight relayed call-signaling events of server.js 110-146. -/
inductive SignalKind where
  | callUser
  | callAccepted
  | prepareCall
  | readyForOffer
  | offer
  | answer
  | ice
  | endCall
deriving Repr, DecidableEq

/-- Payload the server forwards: `call-user` is re-wrapped as
`{from, name, callType}`; accept/prepare/ready forward `{from}`; the WebRTC
events and `end-call` forward the inbound data verbatim. -/
inductive OutPayload where
  | incomingCall (fromId name callType : String)
  | fromOnly (fromId : String)
  | verbatim (d : SignalData)
deriving Repr, DecidableEq

/-- server.js 110-146: every call-signaling handler is
`io.to(data.to).emit(outName, outPayload)` — pure routing to the sockets of the
target identity room; no server state is read or written besides the room
lookup.  Result: (unchanged room table, per-socket events
(socketId, eventName, payload)). -/
def relaySignal (st : Rooms) (k : SignalKind) (d : SignalData) :
    Rooms × List (String × String × OutPayload) :=
  let out : String × OutPayload :=
    match k with
    | .callUser => ("incoming-call", .incomingCall d.fromId d.name d.callType)
    | .callAccepted => ("call-accepted", .fromOnly d.fromId)
    | .prepareCall => ("prepare-call", .fromOnly d.fromId)
    | .readyForOffer => ("ready-for-offer", .fromOnly d.fromId)
    | .offer => ("webrtc-offer", .verbatim d)
    | .answer => ("webrtc-answer", .verbatim d)
    | .ice => ("webrtc-ice-candidate", .verbatim d)
    | .endCall => ("end-call", .verbatim d)
  (st, (sessionsIn st d.target).map (fun s => (s, out.1, out.2)))

/-! ## Client call lifecycle (src/mern_chat_frontend/src/App.jsx)

The CallModal component's refs and state are flattened into one record.
SDP contents are opaque; `createOffer`/`createAnswer` return fixed labels.
WebRTC semantics embedded: `addIceCandidate` rejects when no remote
description is set or the connection is closed; `setRemoteDescription` and
`createOffer` reject on a closed connection.  Each `async` handler is embedded
as the sequential state transformer its `await` chain denotes, with the
`try/catch` wrappers turning a rejection into a logged no-op at the point of
failure. -/

/-- A media track: identifier plus whether `stop()` has been called on it. -/
structure Track where
  tid : String
  stopped : Bool
deriving Repr, DecidableEq

/-- RTCPeerConnection as the signaling code observes it. -/
structure PC where
  closed : Bool
  localDesc : Option String
  remoteDesc : Option String
  addedTracks : List String
  candidates : List String
deriving Repr, DecidableEq

/-- A fresh RTCPeerConnection (App.jsx 153-156). -/
def newPC : PC := ⟨false, none, none, [], []⟩

/-- `pc.addIceCandidate(c)`: rejects with InvalidStateError when the connection
is closed or has no remote description; otherwise appends the candidate.
Returns (connection, success?). -/
def PC.addIceCandidate (pc : PC) (c : String) : PC × Bool :=
  if pc.closed then (pc, false)
  else if pc.remoteDesc.isNone then (pc, false)
  else ({ pc with candidates := pc.candidates ++ [c] }, true)

/-- `pc.setRemoteDescription(sdp)`: rejects on a closed connection. -/
def PC.setRemoteDescription (pc : PC) (sdp : String) : PC × Bool :=
  if pc.closed then (pc, false) else ({ pc with remoteDesc := some sdp }, true)

/-- `pc.close()`. -/
def PC.close (pc : PC) : PC := { pc with closed := true }

/-- `pc.createOffer()` (SDP contents abstracted to a label). -/
def PC.createOffer (_ : PC) : String := "offer-sdp"

/-- `pc.createAnswer()` (SDP contents abstracted to a label). -/
def PC.createAnswer (_ : PC) : String := "answer-sdp"

/-- Flattened CallModal + ChatsPage call state: the `pc`, `localStream` and
`remoteStream` refs, the `inCall` flag, the `incoming` flag, whether the modal
is mounted (`showCallModal`), the `callAccepted` flag and the `caller`/`callee`
ids held by ChatsPage, plus the authenticated user's id. -/
structure CallState where
  userId : String
  pc : Option PC
  localStream : Option (List Track)
  remoteStream : List Track
  inCall : Bool
  incoming : Bool
  modalOpen : Bool
  callAccepted : Bool
  callerId : Option String
  calleeId : Option String
deriving Repr, DecidableEq

/-- Events a client emits to the server during a call. -/
inductive ClientEmit where
  | prepareEmit (target fromId : String)
  | readyEmit (target : String)
  | offerEmit (target fromId sdp : String)
  | answerEmit (target fromId sdp : String)
  | candidateEmit (target fromId c : String)
  | endEmit (target : Option String)
deriving Repr, DecidableEq

/-- `t.stop()` mapped over a stream's tracks. -/
def stopTracks (ts : List Track) : List Track :=
  ts.map (fun t => { t with stopped := true })

/-- App.jsx 786-791, `closeCall`: ChatsPage clears the modal flag and the
caller/callee/accepted state. -/
def closeCallStates (st : CallState) : CallState :=
  { st with modalOpen := false, callerId := none, calleeId := none,
            callAccepted := false }

/-- App.jsx 181-186: the CallModal unmount effect closes the peer connection
(the local media tracks are NOT stopped here). -/
def unmountCleanup (st : CallState) : CallState :=
  { st with pc := st.pc.map PC.close }

/-- App.jsx 310-320, `endCall` (local hangup / decline / peer-disconnected):
close the pc, stop every local and remote track, emit `end-call` to
`callee?._id || caller?._id`, then `onClose` (= `closeCall`, which unmounts the
modal and runs its cleanup). -/
def endCall (st : CallState) : CallState × List ClientEmit :=
  let st1 : CallState :=
    { st with pc := st.pc.map PC.close,
              localStream := st.localStream.map stopTracks,
              remoteStream := stopTracks st.remoteStream }
  let target : Option String :=
    match st.calleeId with
    | some c => some c
    | none => st.callerId
  (unmountCleanup (closeCallStates st1), [ClientEmit.endEmit target])

/-- App.jsx 827-829 with 786-791: receiving `end-call` runs `closeCall`; if the
modal was mounted this unmounts it, running the cleanup effect.  No media track
is stopped on this path. -/
def handleEndCall (st : CallState) : CallState :=
  if st.modalOpen then unmountCleanup (closeCallStates st) else closeCallStates st

/-- App.jsx 246-256, `handleCandidate`: guard `if (data.candidate)`, then
`pc.current.addIceCandidate(...)` at once — there is no pending-candidate
queue; a rejection is caught and logged.  Returns (state, error-logged?). -/
def handleCandidate (st : CallState) (c : Option String) : CallState × Bool :=
  match c with
  | none => (st, false)
  | some cand =>
    match st.pc with
    | none => (st, true)
    | some p =>
      let r := p.addIceCandidate cand
      ({ st with pc := some r.1 }, !r.2)

/-- App.jsx 231-244, `handleAnswer`: set the remote description and flip
`inCall` to true; a rejection is caught and logged (the receiver-to-video-ref
wiring touches only DOM refs and is omitted). -/
def handleAnswer (st : CallState) (ans : String) : CallState :=
  match st.pc with
  | none => st
  | some p =>
    let r := p.setRemoteDescription ans
    if r.2 then { st with pc := some r.1, inCall := true }
    else { st with pc := some r.1 }

/-- App.jsx 210-229, `handleOffer` (callee): set the remote description,
acquire local media (`gum` is the result of `getUserMedia`; `none` = denial),
attach the tracks, create and set the answer, emit it to the offerer, set
`inCall`.  A rejection aborts at its point in the await chain, so a media
denial still leaves the remote description set. -/
def handleOffer (st : CallState) (fromId sdp : String) (gum : Option (List Track)) :
    CallState × List ClientEmit :=
  match st.pc with
  | none => (st, [])
  | some p =>
    let r := p.setRemoteDescription sdp
    if !r.2 then ({ st with pc := some r.1 }, [])
    else
      match gum with
      | none => ({ st with pc := some r.1 }, [])
      | some tracks =>
        let p2 := { r.1 with addedTracks := r.1.addedTracks ++ tracks.map Track.tid }
        let ans := p2.createAnswer
        let p3 := { p2 with localDesc := some ans }
        ({ st with pc := some p3, localStream := some tracks, inCall := true },
         [ClientEmit.answerEmit fromId st.userId ans])

/-- App.jsx 168-179, `pc.current.ontrack`: append the inbound tracks to the
remote stream (and wire it to the media elements); no flag changes. -/
def ontrack (st : CallState) (ts : List Track) : CallState :=
  { st with remoteStream := st.remoteStream ++ ts }

/-- App.jsx 276-293, `startCall` (caller, runs once `callee` is set and
`callAccepted` arrives): acquire local media FIRST, attach the tracks, then
emit `prepare-call`; the offer is not created here.  A media denial aborts
everything; a missing callee record aborts at the emit (the media is then
already acquired). -/
def startCall (st : CallState) (gum : Option (List Track)) :
    CallState × List ClientEmit :=
  match gum with
  | none => (st, [])
  | some tracks =>
    match st.pc with
    | none => ({ st with localStream := some tracks }, [])
    | some p =>
      let p1 := { p with addedTracks := p.addedTracks ++ tracks.map Track.tid }
      let st1 := { st with pc := some p1, localStream := some tracks }
      match st.calleeId with
      | none => (st1, [])
      | some cid => (st1, [ClientEmit.prepareEmit cid st.userId])

/-- App.jsx 285-289, the `socket.once("ready-for-offer")` continuation: create
the offer, set it as the local description, emit it to the callee. -/
def onReadyForOffer (st : CallState) : CallState × List ClientEmit :=
  match st.pc with
  | none => (st, [])
  | some p =>
    if p.closed then (st, [])
    else
      let offer := p.createOffer
      let p1 := { p with localDesc := some offer }
      match st.calleeId with
      | none => ({ st with pc := some p1 }, [])
      | some cid =>
        ({ st with pc := some p1 }, [ClientEmit.offerEmit cid st.userId offer])

/-- App.jsx 296-301: the callee's `prepare-call` listener replies
`ready-for-offer` to the sender (payload `{ to: from }`). -/
def handlePrepareCall (st : CallState) (fromId : String) :
    CallState × List ClientEmit :=
  (st, [ClientEmit.readyEmit fromId])

/-- App.jsx 823-825, `handleCallAccepted`. -/
def handleCallAccepted (st : CallState) : CallState :=
  { st with callAccepted := true }

/-- The call-relevant socket events a client can receive. -/
inductive ClientEvent where
  | offerEv (fromId sdp : String) (gum : Option (List Track))
  | answerEv (sdp : String)
  | candidateEv (c : Option String)
  | endCallEv
  | peerDisconnectedEv
deriving Repr, DecidableEq

/-- Event dispatch as the listener registrations imply it: while the modal is
mounted (App.jsx 262-272) the WebRTC handlers and the peer-disconnected
handler are attached; after unmount they are removed, so only the ChatsPage
`end-call` listener (App.jsx 827-833, always attached) still reacts. -/
def dispatch (st : CallState) (ev : ClientEvent) : CallState × List ClientEmit :=
  if st.modalOpen then
    match ev with
    | .offerEv f sdp gum => handleOffer st f sdp gum
    | .answerEv sdp => (handleAnswer st sdp, [])
    | .candidateEv c => ((handleCandidate st c).1, [])
    | .endCallEv => (handleEndCall st, [])
    | .peerDisconnectedEv => endCall st
  else
    match ev with
    | .endCallEv => (handleEndCall st, [])
    | _ => (st, [])

/-! ### List helper lemmas -/

theorem count_eq_one_of_nodup {α : Type} [BEq α] [LawfulBEq α] {l : List α} {a : α}
    (d : l.Nodup) (h : a ∈ l) : l.count a = 1 := by
  induction l with
  | nil => cases h
  | cons b t ih =>
    rcases List.mem_cons.mp h with h1 | h2
    · subst h1
      rw [List.count_cons_self, List.count_eq_zero_of_not_mem (List.nodup_cons.mp d).1]
    · have hne : a ≠ b := by
        rintro rfl
        exact (List.nodup_cons.mp d).1 h2
      rw [List.count_cons_of_ne hne]
      exact ih (List.nodup_cons.mp d).2 h2

theorem sessionsIn_append (a b : Rooms) (r : String) :
    sessionsIn (a ++ b) r = sessionsIn a r ++ sessionsIn b r := by
  simp [sessionsIn, List.filter_append]

theorem count_sessionsIn (st : Rooms) (r x : String) :
    (sessionsIn st r).count x = st.count (r, x) := by
  induction st with
  | nil => rfl
  | cons p t ih =>
    obtain ⟨a, b⟩ := p
    have ih2 : List.count x (List.map Prod.snd (List.filter (fun q => q.1 == r) t))
        = List.count (r, x) t := ih
    by_cases hr : a = r
    · subst hr
      by_cases hb : b = x
      · subst hb
        simp [sessionsIn, List.filter_cons, List.count_cons, ih2]
      · simp [sessionsIn, List.filter_cons, List.count_cons, hb, ih2]
    · simp [sessionsIn, List.filter_cons, List.count_cons, hr, ih2]

theorem sessionsIn_eq_nil {st : Rooms} {r : String} (h : ∀ p ∈ st, p.1 ≠ r) :
    sessionsIn st r = [] := by
  simp only [sessionsIn, List.map_eq_nil_iff, List.filter_eq_nil_iff]
  intro p hp
  simpa using h p hp

theorem flatMap_congr_of_eq {α β : Type} {l : List α} {f g : α → List β}
    (h : ∀ a ∈ l, f a = g a) : l.flatMap f = l.flatMap g := by
  induction l with
  | nil => rfl
  | cons a t ih =>
    rw [List.flatMap_cons, List.flatMap_cons, h a (List.mem_cons_self a t),
      ih (fun b hb => h b (List.mem_cons_of_mem a hb))]

theorem filter_ne_uid_length {l : List MsgUser} {s : String}
    (hnd : (l.map MsgUser.uid).Nodup) (hmem : s ∈ l.map MsgUser.uid) :
    (l.filter (fun u => u.uid != s)).length = l.length - 1 := by
  induction l with
  | nil => cases hmem
  | cons u t ih =>
    rw [List.map_cons, List.nodup_cons] at hnd
    rcases List.mem_cons.mp hmem with h1 | h2
    · subst h1
      have hall : t.filter (fun v => v.uid != u.uid) = t := by
        rw [List.filter_eq_self]
        intro v hv
        simp only [bne_iff_ne, ne_eq]
        intro hc
        exact hnd.1 (hc ▸ List.mem_map_of_mem MsgUser.uid hv)
      simp [List.filter_cons, hall]
    · have hpos : 0 < t.length := by
        have h3 := List.length_pos_of_mem h2
        simpa using h3
      have hne : u.uid ≠ s := fun hc => hnd.1 (hc ▸ h2)
      have hb : (u.uid != s) = true := by simpa using hne
      rw [List.filter_cons, if_pos hb]
      simp only [List.length_cons]
      rw [ih hnd.2 h2]
      omega

theorem count_filter_map_uid {l : List MsgUser} {s x : String}
    (hnd : (l.map MsgUser.uid).Nodup) (hx : x ∈ l.map MsgUser.uid) (hxs : x ≠ s) :
    ((l.filter (fun u => u.uid != s)).map MsgUser.uid).count x = 1 := by
  have h1 : ((l.filter (fun u => u.uid != s)).map MsgUser.uid).count x
      = List.countP (fun u => u.uid == x) (l.filter (fun u => u.uid != s)) := by
    rw [List.count_eq_countP, List.countP_map]
    rfl
  have h2 : List.countP (fun u => u.uid == x) (l.filter (fun u => u.uid != s))
      = List.countP (fun u => (u.uid == x) && (u.uid != s)) l := by
    rw [List.countP_filter]
  have h3 : List.countP (fun u => (u.uid == x) && (u.uid != s)) l
      = List.countP (fun u => u.uid == x) l := by
    apply List.countP_congr
    intro u _
    simp only [Bool.and_eq_true, beq_iff_eq, bne_iff_ne, ne_eq]
    constructor
    · exact fun h => h.1
    · intro h
      refine ⟨h, ?_⟩
      rw [h]
      exact hxs
  have h4 : List.countP (fun u => u.uid == x) l = (l.map MsgUser.uid).count x := by
    rw [List.count_eq_countP, List.countP_map]
    rfl
  rw [h1, h2, h3, h4]
  exact count_eq_one_of_nodup hnd hx

/-! ### C2 — message fan-out -/

/-- C2: relaying a message whose chat lists N (pairwise-distinct) members,
the sender among them, emits the "message received" event to exactly the N−1
identity rooms of the other members — one emit per other member, N−1 in all,
none to the sender's identity room; every session-level delivery carries the
message verbatim; every other member with a live session receives a delivery;
and adding conversation-room memberships (rooms outside the member ids) to the
table changes none of the deliveries. -/
theorem C2_message_fanout (st extra : Rooms) (msg : Message) (c : MsgChat)
    (us : List MsgUser) (hc : msg.chat = some c) (hu : c.users = some us)
    (hN : 1 < us.length) (hnd : (us.map MsgUser.uid).Nodup)
    (hsend : msg.sender.uid ∈ us.map MsgUser.uid)
    (hextra : ∀ p ∈ extra, p.1 ∉ us.map MsgUser.uid) :
    (newMessage msg).1.length = us.length - 1
    ∧ msg.sender.uid ∉ (newMessage msg).1
    ∧ (∀ x ∈ us.map MsgUser.uid, x ≠ msg.sender.uid → (newMessage msg).1.count x = 1)
    ∧ (∀ e ∈ newMessageDeliveries st msg, e.2 = msg)
    ∧ (∀ u ∈ us, u.uid ≠ msg.sender.uid → sessionsIn st u.uid ≠ [] →
        ∃ s, s ∈ sessionsIn st u.uid ∧ (s, msg) ∈ newMessageDeliveries st msg)
    ∧ newMessageDeliveries (st ++ extra) msg = newMessageDeliveries st msg := by
  have hE : (newMessage msg).1
      = (us.filter (fun u => u.uid != msg.sender.uid)).map MsgUser.uid := by
    simp [newMessage, hc, hu]
  have hlog : (newMessage msg).2 = false := by
    simp [newMessage, hc, hu]
  refine ⟨?_, ?_, ?_, ?_, ?_, ?_⟩
  · rw [hE, List.length_map]
    exact filter_ne_uid_length hnd hsend
  · rw [hE]
    intro hmem
    rcases List.mem_map.mp hmem with ⟨u, hu1, hu2⟩
    rcases List.mem_filter.mp hu1 with ⟨_, hu3⟩
    rw [hu2] at hu3
    simp at hu3
  · intro x hx hxs
    rw [hE]
    exact count_filter_map_uid hnd hx hxs
  · intro e he
    rcases List.mem_flatMap.mp he with ⟨r, _, he2⟩
    rcases List.mem_map.mp he2 with ⟨s, _, hs2⟩
    rw [← hs2]
  · intro u hu1 hu2 hu3
    rcases List.exists_mem_of_ne_nil (sessionsIn st u.uid) hu3 with ⟨s, hs⟩
    refine ⟨s, hs, ?_⟩
    apply List.mem_flatMap.mpr
    refine ⟨u.uid, ?_, List.mem_map_of_mem (fun q => (q, msg)) hs⟩
    rw [hE]
    apply List.mem_map_of_mem
    apply List.mem_filter.mpr
    refine ⟨hu1, ?_⟩
    simpa using hu2
  · unfold newMessageDeliveries
    apply flatMap_congr_of_eq
    intro r hr
    have hrid : r ∈ us.map MsgUser.uid := by
      rw [hE] at hr
      rcases List.mem_map.mp hr with ⟨u, hu1, hu2⟩
      exact hu2 ▸ List.mem_map_of_mem MsgUser.uid (List.mem_filter.mp hu1).1
    have hnil : sessionsIn extra r = [] := by
      apply sessionsIn_eq_nil
      intro p hp hc2
      exact hextra p hp (hc2 ▸ hrid)
    rw [sessionsIn_append, hnil, List.append_nil]

/-- Witness for C2: a two-member chat, sender u1, recipient u2 with one live
session; the message reaches u2's session exactly once and u1 not at all. -/
theorem C2_message_fanout_witness :
    (newMessage ⟨some ⟨some [⟨"u1"⟩, ⟨"u2"⟩]⟩, ⟨"u1"⟩, "hi"⟩).1.length = 1
    ∧ "u1" ∉ (newMessage ⟨some ⟨some [⟨"u1"⟩, ⟨"u2"⟩]⟩, ⟨"u1"⟩, "hi"⟩).1 := by
  have h := C2_message_fanout [("u1", "s1"), ("u2", "s2")] [("c1", "s1")]
    ⟨some ⟨some [⟨"u1"⟩, ⟨"u2"⟩]⟩, ⟨"u1"⟩, "hi"⟩ ⟨some [⟨"u1"⟩, ⟨"u2"⟩]⟩
    [⟨"u1"⟩, ⟨"u2"⟩] rfl rfl (by decide) (by decide) (by decide) (by decide)
  exact ⟨h.1, h.2.1⟩

/-! ### C3 — disconnect notification -/

theorem count_map_pair (l : List String) (x sid : String) :
    (l.map (fun s => (s, sid))).count (x, sid) = l.count x := by
  induction l with
  | nil => rfl
  | cons a t ih =>
    by_cases h : a = x
    · subst h
      rw [List.map_cons, List.count_cons_self, List.count_cons_self, ih]
    · have h1 : (x, sid) ≠ (a, sid) := by
        intro hc
        rw [Prod.mk.injEq] at hc
        exact h hc.1.symm
      have h2 : x ≠ a := fun hc => h hc.symm
      rw [List.map_cons, List.count_cons_of_ne h1, List.count_cons_of_ne h2, ih]

theorem count_flatMap_sessions (st : Rooms) (sid x : String) (hnd : st.Nodup)
    (rs : List String) :
    (rs.flatMap (fun r => (sessionsIn st r).map (fun s => (s, sid)))).count (x, sid)
      = (rs.filter (fun r => decide ((r, x) ∈ st))).length := by
  induction rs with
  | nil => rfl
  | cons r t ih =>
    rw [List.flatMap_cons, List.count_append, count_map_pair, count_sessionsIn, ih,
      List.filter_cons]
    by_cases h : (r, x) ∈ st
    · rw [count_eq_one_of_nodup hnd h, if_pos (decide_eq_true h), List.length_cons]
      omega
    · rw [List.count_eq_zero_of_not_mem h, if_neg (by simp [h])]
      omega

/-- C3 counterexample: socket s (identity u1) shares chat rooms c1 and c2 with
socket t (identity u2).  When s disconnects, t receives the peer-gone event
twice (once per shared room), and s itself receives it three times (via its
identity room u1 and both chat rooms) — the claim says t gets exactly one and
s gets none. -/
theorem C3_counterexample :
    (disconnecting [("s", "s"), ("t", "t"), ("u1", "s"), ("u2", "t"),
        ("c1", "s"), ("c1", "t"), ("c2", "s"), ("c2", "t")] "s").count ("t", "s") = 2
    ∧ (disconnecting [("s", "s"), ("t", "t"), ("u1", "s"), ("u2", "t"),
        ("c1", "s"), ("c1", "t"), ("c2", "s"), ("c2", "t")] "s").count ("s", "s") = 3 := by
  decide

/-- C3 (amended): when a socket disconnects, the server emits peer-gone once
per room the socket belonged to (its own-id room excluded) to every socket
currently in that room, the departing socket included; hence any socket x
receives exactly as many peer-gone events as there are rooms of the departing
socket (own-id room excluded) that x is also in — so a socket sharing several
rooms receives several events, one sharing none receives none, and every event
carries the departed socket id. -/
theorem C3_peer_gone_per_shared_room (st : Rooms) (sid x : String) (hnd : st.Nodup) :
    (disconnecting st sid).count (x, sid)
      = ((roomsOf st sid).filter (fun r => decide ((r, x) ∈ st) && (r != sid))).length
    ∧ ∀ e ∈ disconnecting st sid, e.2 = sid := by
  constructor
  · rw [disconnecting, count_flatMap_sessions st sid x hnd, List.filter_filter]
  · intro e he
    rcases List.mem_flatMap.mp he with ⟨r, _, he2⟩
    rcases List.mem_map.mp he2 with ⟨s, _, hs2⟩
    rw [← hs2]

/-- Witness for C3's amended theorem on the counterexample table: t shares two
rooms with the departing s and receives exactly two events. -/
theorem C3_peer_gone_per_shared_room_witness :
    (disconnecting [("s", "s"), ("t", "t"), ("u1", "s"), ("u2", "t"),
        ("c1", "s"), ("c1", "t"), ("c2", "s"), ("c2", "t")] "s").count ("t", "s")
      = ((roomsOf [("s", "s"), ("t", "t"), ("u1", "s"), ("u2", "t"),
          ("c1", "s"), ("c1", "t"), ("c2", "s"), ("c2", "t")] "s").filter
          (fun r => decide ((r, "t") ∈ [("s", "s"), ("t", "t"), ("u1", "s"), ("u2", "t"),
            ("c1", "s"), ("c1", "t"), ("c2", "s"), ("c2", "t")]) && (r != "s"))).length :=
  (C3_peer_gone_per_shared_room [("s", "s"), ("t", "t"), ("u1", "s"), ("u2", "t"),
    ("c1", "s"), ("c1", "t"), ("c2", "s"), ("c2", "t")] "s" "t" (by decide)).1

/-! ### C8 — empty vs absent member list -/

/-- C8 counterexample: a message whose member list is present but empty is not
logged as malformed (`[]` is truthy in JS, so the `!chat?.users` guard does not
fire); delivery emits nothing but the claimed malformed-message log does not
occur. -/
theorem C8_counterexample :
    newMessage ⟨some ⟨some []⟩, ⟨"u1"⟩, "hi"⟩ = ([], false) := rfl

/-- C8 (amended): a message whose chat record or member list is absent aborts
delivery with no emit and fires the malformed-message log; a present but empty
member list also emits nothing, but without the log; no path raises an error
to the sender. -/
theorem C8_missing_vs_empty_members (msg : Message) :
    (msg.chat = none → newMessage msg = ([], true))
    ∧ (∀ c, msg.chat = some c → c.users = none → newMessage msg = ([], true))
    ∧ (∀ c, msg.chat = some c → c.users = some [] → newMessage msg = ([], false)) := by
  refine ⟨fun h => by simp [newMessage, h],
          fun c hc hu => by simp [newMessage, hc, hu],
          fun c hc hu => by simp [newMessage, hc, hu]⟩

/-- Witness for C8: the amended theorem evaluated on a chat-less message. -/
theorem C8_missing_vs_empty_members_witness :
    newMessage ⟨none, ⟨"u1"⟩, "hi"⟩ = ([], true) :=
  (C8_missing_vs_empty_members ⟨none, ⟨"u1"⟩, "hi"⟩).1 rfl

/-! ### C9 — joinRoom idempotence -/

/-- C9: joining the same room twice leaves the room table exactly as one join
left it, and (for a duplicate-free table) a subsequent fan-out to that room
reaches the joined socket exactly once. -/
theorem C9_joinRoom_idempotent (st : Rooms) (sid room : String) :
    joinRoom (joinRoom st sid room) sid room = joinRoom st sid room
    ∧ (st.Nodup → (sessionsIn (joinRoom st sid room) room).count sid = 1) := by
  constructor
  · by_cases h : (room, sid) ∈ st
    · simp [joinRoom, h]
    · simp [joinRoom, h]
  · intro hnd
    by_cases h : (room, sid) ∈ st
    · rw [joinRoom, if_pos h, count_sessionsIn]
      exact count_eq_one_of_nodup hnd h
    · rw [joinRoom, if_neg h, sessionsIn_append, List.count_append, count_sessionsIn,
        List.count_eq_zero_of_not_mem h]
      simp [sessionsIn]

/-- Witness for C9 at a concrete table: socket s1 joins room c1 twice. -/
theorem C9_joinRoom_idempotent_witness :
    joinRoom (joinRoom [("u1", "s1")] "s1" "c1") "s1" "c1"
        = joinRoom [("u1", "s1")] "s1" "c1"
    ∧ (sessionsIn (joinRoom [("u1", "s1")] "s1" "c1") "c1").count "s1" = 1 :=
  ⟨(C9_joinRoom_idempotent [("u1", "s1")] "s1" "c1").1,
   (C9_joinRoom_idempotent [("u1", "s1")] "s1" "c1").2 (by decide)⟩

/-! ### C10 — signaling to an offline identity -/

/-- C10: relaying any of the eight call-signaling events to a target identity
with zero live sessions emits no event to any socket (the sender included),
returns nothing to the sender, and leaves the room table unchanged. -/
theorem C10_offline_target_silent (st : Rooms) (k : SignalKind) (d : SignalData)
    (h : sessionsIn st d.target = []) :
    relaySignal st k d = (st, []) := by
  cases k <;> simp [relaySignal, h]

/-- Witness for C10: dialing the offline identity u2 on a table where only u9
is connected produces no event and no state change. -/
theorem C10_offline_target_silent_witness :
    relaySignal [("u9", "s9")] SignalKind.callUser ⟨"u2", "u1", "Alice", "video", "", ""⟩
      = ([("u9", "s9")], []) :=
  C10_offline_target_silent [("u9", "s9")] SignalKind.callUser
    ⟨"u2", "u1", "Alice", "video", "", ""⟩ (by decide)

/-! ### C1 — ICE candidates arriving before the remote description -/

/-- C1: the code evaluated at a candidate arriving before any remote
description exists (fresh connection): `addIceCandidate` rejects, the error is
caught and logged, the state is completely unchanged (no queue records the
candidate), and after the remote description is later applied the connection's
candidate set is still empty — the candidate was discarded, never queued and
never flushed. -/
theorem C1_candidate_dropped_before_remote_desc :
    (handleCandidate ⟨"u1", some newPC, none, [], false, false, true, true, none, some "u2"⟩
        (some "cand1")).2 = true
    ∧ (handleCandidate ⟨"u1", some newPC, none, [], false, false, true, true, none, some "u2"⟩
        (some "cand1")).1
      = ⟨"u1", some newPC, none, [], false, false, true, true, none, some "u2"⟩
    ∧ ((handleAnswer
          (handleCandidate ⟨"u1", some newPC, none, [], false, false, true, true, none,
            some "u2"⟩ (some "cand1")).1 "sdp").pc.map PC.candidates) = some [] := by
  decide

/-! ### C4 — ending a call -/

/-- C4 counterexample: a live local camera track survives the remote-end path.
Receiving `end-call` runs `closeCall`, whose unmount cleanup closes the pc but
stops no track: the local track is still unstopped afterwards, where the claim
requires every local media track stopped on this path. -/
theorem C4_counterexample :
    (handleEndCall ⟨"u1", some newPC, some [⟨"cam", false⟩], [], true, false, true, true,
        some "u2", none⟩).localStream = some [⟨"cam", false⟩]
    ∧ (handleEndCall ⟨"u1", some newPC, some [⟨"cam", false⟩], [], true, false, true, true,
        some "u2", none⟩).modalOpen = false := by
  decide

/-- C4 (amended): on the local-hangup path (`endCall`) the peer connection ends
closed, every local and remote track is stopped, and the modal closes; on the
remote-end path (`handleEndCall`) the modal closes and the peer connection is
closed by the unmount cleanup, but the local media tracks are left exactly as
they were — they are not stopped. -/
theorem C4_end_paths (st : CallState) :
    (∀ ts, (endCall st).1.localStream = some ts → ∀ t ∈ ts, t.stopped = true)
    ∧ (∀ t ∈ (endCall st).1.remoteStream, t.stopped = true)
    ∧ (∀ p, (endCall st).1.pc = some p → p.closed = true)
    ∧ (endCall st).1.modalOpen = false
    ∧ (handleEndCall st).localStream = st.localStream
    ∧ (∀ p, st.pc = some p → st.modalOpen = true → (handleEndCall st).pc = some (PC.close p))
    ∧ (handleEndCall st).modalOpen = false := by
  refine ⟨?_, ?_, ?_, ?_, ?_, ?_, ?_⟩
  · intro ts hts t ht
    cases hls : st.localStream with
    | none => simp [endCall, unmountCleanup, closeCallStates, hls] at hts
    | some l =>
      simp only [endCall, unmountCleanup, closeCallStates, hls, Option.map_some,
        Option.map_some', Option.some.injEq] at hts
      subst hts
      rcases List.mem_map.mp ht with ⟨t0, _, ht2⟩
      rw [← ht2]
  · intro t ht
    simp only [endCall, unmountCleanup, closeCallStates] at ht
    rcases List.mem_map.mp ht with ⟨t0, _, ht2⟩
    rw [← ht2]
  · intro p hp
    cases hpc : st.pc with
    | none => simp [endCall, unmountCleanup, closeCallStates, hpc] at hp
    | some q =>
      simp only [endCall, unmountCleanup, closeCallStates, hpc, Option.map_some,
        Option.map_some', Option.some.injEq] at hp
      rw [← hp]
      rfl
  · cases st.calleeId <;> simp [endCall, unmountCleanup, closeCallStates]
  · by_cases h : st.modalOpen = true <;> simp [handleEndCall, unmountCleanup,
      closeCallStates, h]
  · intro p hp hm
    simp [handleEndCall, unmountCleanup, closeCallStates, hp, hm]
  · by_cases h : st.modalOpen = true <;> simp [handleEndCall, unmountCleanup,
      closeCallStates, h]

/-- Witness for C4's amended theorem: a one-track call ended locally stops the
track and closes the connection; the same state ended remotely keeps the track
live. -/
theorem C4_end_paths_witness :
    (∀ t ∈ ([⟨"cam", true⟩] : List Track), t.stopped = true)
    ∧ (handleEndCall ⟨"u1", some newPC, some [⟨"cam", false⟩], [], true, false, true, true,
        some "u2", none⟩).localStream = some [⟨"cam", false⟩] :=
  ⟨(C4_end_paths ⟨"u1", some newPC, some [⟨"cam", false⟩], [], true, false, true, true,
      some "u2", none⟩).1 [⟨"cam", true⟩] (by decide),
   (C4_end_paths ⟨"u1", some newPC, some [⟨"cam", false⟩], [], true, false, true, true,
      some "u2", none⟩).2.2.2.2.1⟩

/-! ### C5 — readiness handshake and the offer -/

/-- C5 counterexample: when `startCall` emits `prepare-call` — before any
"ready" reply can exist — the caller's local media is already acquired and its
tracks already attached, where the claim says media is acquired only upon
receiving "ready". -/
theorem C5_counterexample :
    ((startCall ⟨"u1", some newPC, none, [], false, false, true, true, none, some "u2"⟩
        (some [⟨"mic", false⟩])).1.localStream = some [⟨"mic", false⟩])
    ∧ ((startCall ⟨"u1", some newPC, none, [], false, false, true, true, none, some "u2"⟩
        (some [⟨"mic", false⟩])).1.pc.map PC.addedTracks = some ["mic"])
    ∧ ((startCall ⟨"u1", some newPC, none, [], false, false, true, true, none, some "u2"⟩
        (some [⟨"mic", false⟩])).2 = [ClientEmit.prepareEmit "u2" "u1"]) := by
  decide

/-- C5 (amended): after the callee's accept, the caller first acquires its
local media and attaches the tracks, then emits `prepare-call` and nothing
else — in particular no offer yet; only the `ready-for-offer` continuation
creates the offer, sets it as the local description, and emits exactly that
offer to the callee.  The handshake therefore does complete before the offer
is generated, but media acquisition precedes it. -/
theorem C5_media_then_prepare_then_offer (st : CallState) (p : PC) (cid : String)
    (tracks : List Track) (hpc : st.pc = some p) (hcid : st.calleeId = some cid)
    (hopen : p.closed = false) :
    (startCall st (some tracks)).2 = [ClientEmit.prepareEmit cid st.userId]
    ∧ (startCall st (some tracks)).1.localStream = some tracks
    ∧ ((startCall st (some tracks)).1.pc.map PC.addedTracks
        = some (p.addedTracks ++ tracks.map Track.tid))
    ∧ (onReadyForOffer (startCall st (some tracks)).1).2
        = [ClientEmit.offerEmit cid st.userId "offer-sdp"]
    ∧ ((onReadyForOffer (startCall st (some tracks)).1).1.pc.map PC.localDesc
        = some (some "offer-sdp")) := by
  refine ⟨?_, ?_, ?_, ?_, ?_⟩ <;>
    simp [startCall, onReadyForOffer, hpc, hcid, hopen, PC.createOffer]

/-- Witness for C5's amended theorem on a fresh accepted call. -/
theorem C5_media_then_prepare_then_offer_witness :
    (startCall ⟨"u1", some newPC, none, [], false, false, true, true, none, some "u2"⟩
        (some [⟨"mic", false⟩])).2 = [ClientEmit.prepareEmit "u2" "u1"]
    ∧ (onReadyForOffer (startCall ⟨"u1", some newPC, none, [], false, false, true, true,
        none, some "u2"⟩ (some [⟨"mic", false⟩])).1).2
      = [ClientEmit.offerEmit "u2" "u1" "offer-sdp"] :=
  ⟨(C5_media_then_prepare_then_offer
      ⟨"u1", some newPC, none, [], false, false, true, true, none, some "u2"⟩
      newPC "u2" [⟨"mic", false⟩] rfl rfl rfl).1,
   (C5_media_then_prepare_then_offer
      ⟨"u1", some newPC, none, [], false, false, true, true, none, some "u2"⟩
      newPC "u2" [⟨"mic", false⟩] rfl rfl rfl).2.2.2.1⟩

/-! ### C6 — when Active is reached -/

/-- C6 counterexample: processing the answer flips `inCall` to true although no
remote media track has ever been observed, and observing the first remote
track leaves `inCall` untouched — the transition tracks the signaling message,
not inbound media, contradicting the claim in both directions. -/
theorem C6_counterexample :
    ((handleAnswer ⟨"u1", some newPC, none, [], false, false, true, true, none, some "u2"⟩
        "sdp").inCall = true)
    ∧ ((⟨"u1", some newPC, none, [], false, false, true, true, none, some "u2"⟩ :
        CallState).remoteStream = [])
    ∧ ((ontrack ⟨"u1", some newPC, none, [], false, false, true, true, none, some "u2"⟩
        [⟨"rt", false⟩]).inCall = false) := by
  decide

/-- C6 (amended): on an open connection the callee reaches Active (`inCall`)
upon successfully answering an offer and the caller upon successfully applying
the answer; observing remote media tracks only accumulates them in the remote
stream and never changes the `inCall` flag. -/
theorem C6_active_on_answer_not_on_track (st : CallState) (p : PC)
    (hpc : st.pc = some p) (hopen : p.closed = false) :
    (∀ ans, (handleAnswer st ans).inCall = true)
    ∧ (∀ f sdp tracks, (handleOffer st f sdp (some tracks)).1.inCall = true)
    ∧ (∀ ts, (ontrack st ts).inCall = st.inCall)
    ∧ (∀ ts, (ontrack st ts).remoteStream = st.remoteStream ++ ts) := by
  refine ⟨?_, ?_, ?_, ?_⟩ <;>
    intros <;>
    simp [handleAnswer, handleOffer, ontrack, PC.setRemoteDescription, hpc, hopen]

/-- Witness for C6's amended theorem on a fresh negotiating call. -/
theorem C6_active_on_answer_not_on_track_witness :
    (handleAnswer ⟨"u1", some newPC, none, [], false, false, true, true, none, some "u2"⟩
        "sdp").inCall = true
    ∧ (ontrack ⟨"u1", some newPC, none, [], false, false, true, true, none, some "u2"⟩
        [⟨"rt", false⟩]).inCall = false :=
  ⟨(C6_active_on_answer_not_on_track
      ⟨"u1", some newPC, none, [], false, false, true, true, none, some "u2"⟩
      newPC rfl rfl).1 "sdp",
   (C6_active_on_answer_not_on_track
      ⟨"u1", some newPC, none, [], false, false, true, true, none, some "u2"⟩
      newPC rfl rfl).2.2.1 [⟨"rt", false⟩]⟩

/-! ### C7 — Ended is absorbing -/

/-- C7: in the Ended configuration (modal unmounted, caller/callee cleared,
accept flag down) a stray offer, answer or ICE candidate finds no listener, and
a repeated end event re-runs `closeCall` on already-cleared state: every one of
these events leaves the state bit-for-bit unchanged, emits nothing, and raises
no error. -/
theorem C7_ended_is_noop (st : CallState) (hm : st.modalOpen = false)
    (hcr : st.callerId = none) (hce : st.calleeId = none)
    (hca : st.callAccepted = false) :
    (∀ f sdp gum, dispatch st (.offerEv f sdp gum) = (st, []))
    ∧ (∀ sdp, dispatch st (.answerEv sdp) = (st, []))
    ∧ (∀ c, dispatch st (.candidateEv c) = (st, []))
    ∧ dispatch st .endCallEv = (st, []) := by
  obtain ⟨uid, pc, ls, rs, ic, inc, mo, ca, cr, ce⟩ := st
  simp only at hm hcr hce hca
  subst hm hcr hce hca
  exact ⟨fun _ _ _ => rfl, fun _ => rfl, fun _ => rfl, rfl⟩

/-- Witness for C7: a concrete Ended state absorbs a stray answer. -/
theorem C7_ended_is_noop_witness :
    dispatch ⟨"u1", some (PC.close newPC), some [⟨"cam", true⟩], [], false, false, false,
        false, none, none⟩ (.answerEv "sdp")
      = (⟨"u1", some (PC.close newPC), some [⟨"cam", true⟩], [], false, false, false,
        false, none, none⟩, []) :=
  (C7_ended_is_noop ⟨"u1", some (PC.close newPC), some [⟨"cam", true⟩], [], false, false,
    false, false, none, none⟩ rfl rfl rfl rfl).2.1 "sdp"

end Chatcat
